import Mathlib
set_option maxRecDepth 8192

/-!
Verification of the Quote Routing Engine of the AggroSwap repository.

The definitions below are shallow embeddings of the TypeScript sources:
  - src/lib/types.ts          (data model)
  - src/lib/dex-aggregator.ts (AggregatorService.getBestQuote)
  - src/lib/quote-service.ts  (QuoteService: convertToWei, generateRequestHash,
                               getCachedQuote, cacheQuote, getQuote retry loop)
  - bridge-service            (CrossChainRouter.getCrossChainQuote)
  - smart-router              (SmartRouter.getOptimalQuote)

Numeric-string fields that the source only ever consumes through parseFloat
(toAmount, gasEstimate of a quote) are embedded by their numeric value as a
rational number; timestamps are integers in milliseconds.  Network calls are
embedded as oracles: a list (or attempt-indexed function) of per-provider
outcomes, `Except String` playing the role of thrown errors.
-/

namespace AggroSwap

/-- A token, from src/lib/types.ts.  `decimals` is a small natural number;
the optional logo is irrelevant to the engine and omitted. -/
structure Token where
  address : String
  symbol : String
  name : String
  decimals : Nat
  chainId : Nat
deriving DecidableEq

/-- A chain, from src/lib/types.ts. -/
structure Chain where
  id : Nat
  name : String
  symbol : String
  rpcUrl : String
  blockExplorer : String
deriving DecidableEq

/-- Route details attached to a quote, from src/lib/types.ts. -/
structure RouteDetails where
  path : List String
  exchanges : List String
  estimatedGas : String
  priceImpact : ℚ
  slippage : ℚ
deriving DecidableEq

/-- A quote, from src/lib/types.ts.  `fromAmount`, `toAmount` and
`gasEstimate` are decimal strings in the source that are only ever compared
through parseFloat; they are embedded as their numeric (rational) values.
`validUntil` is a millisecond timestamp. -/
structure SwapQuote where
  fromToken : Token
  toToken : Token
  fromAmount : ℚ
  toAmount : ℚ
  priceImpact : ℚ
  gasEstimate : ℚ
  route : RouteDetails
  validUntil : ℤ
deriving DecidableEq

instance {α β : Type} [DecidableEq α] [DecidableEq β] : DecidableEq (Except α β) :=
  fun a b =>
  match a, b with
  | Except.ok x, Except.ok y =>
    if h : x = y then isTrue (congrArg Except.ok h)
    else isFalse fun hc => h (Except.ok.inj hc)
  | Except.error x, Except.error y =>
    if h : x = y then isTrue (congrArg Except.error h)
    else isFalse fun hc => h (Except.error.inj hc)
  | Except.ok _, Except.error _ => isFalse fun hc => Except.noConfusion hc
  | Except.error _, Except.ok _ => isFalse fun hc => Except.noConfusion hc

/-- Net output of a quote: `parseFloat(toAmount) - parseFloat(gasEstimate)`,
the comparison key of CrossChainRouter's reducer. -/
def netAmount (q : SwapQuote) : ℚ :=
  q.toAmount - q.gasEstimate

/-- The collection loop shared by AggregatorService.getBestQuote and
CrossChainRouter.getCrossChainQuote: each provider outcome is tried, a
success is pushed onto `quotes`, a failure is logged and skipped. -/
def collectQuotes : List (Except String SwapQuote) → List SwapQuote
  | [] => []
  | Except.ok q :: rest => q :: collectQuotes rest
  | Except.error _ :: rest => collectQuotes rest

/-- The `Array.prototype.reduce` call of both selectors: starting from the
first candidate, keep `current` over `best` exactly when its key is strictly
greater. -/
def selBy (key : SwapQuote → ℚ) (q0 : SwapQuote) (qs : List SwapQuote) : SwapQuote :=
  qs.foldl (fun best current => if key current > key best then current else best) q0

def allDexFailedMsg : String := "All DEX aggregators failed to provide quotes"

def allBridgesFailedMsg : String := "All bridge services failed to provide quotes"

namespace AggregatorService

/-- AggregatorService.getBestQuote (src/lib/dex-aggregator.ts): collect the
quotes of the aggregators that succeeded, throw if none did, otherwise reduce
to the candidate with the highest `parseFloat(toAmount)`. -/
def getBestQuote (results : List (Except String SwapQuote)) : Except String SwapQuote :=
  match collectQuotes results with
  | [] => Except.error allDexFailedMsg
  | q :: qs => Except.ok (selBy (fun x => x.toAmount) q qs)

end AggregatorService

namespace CrossChainRouter

/-- CrossChainRouter.getCrossChainQuote (bridge-service): collect the quotes
of the bridge services that succeeded, throw if none did, otherwise reduce to
the candidate with the highest net amount `toAmount - gasEstimate`. -/
def getCrossChainQuote (results : List (Except String SwapQuote)) : Except String SwapQuote :=
  match collectQuotes results with
  | [] => Except.error allBridgesFailedMsg
  | q :: qs => Except.ok (selBy netAmount q qs)

/-- CrossChainRouter.isCrossChainSwap. -/
def isCrossChainSwap (fromChainId toChainId : Nat) : Bool :=
  fromChainId != toChainId

end CrossChainRouter

/- Generic facts about the collection loop and the reduce-to-max selector. -/

lemma collectQuotes_eq_filterMap (results : List (Except String SwapQuote)) :
    collectQuotes results = results.filterMap Except.toOption := by
  induction results with
  | nil => rfl
  | cons r rest ih =>
    cases r with
    | ok q => simp [collectQuotes, List.filterMap, Except.toOption, ih]
    | error e => simp [collectQuotes, List.filterMap, Except.toOption, ih]

lemma collectQuotes_nil_iff (results : List (Except String SwapQuote)) :
    collectQuotes results = [] ↔ ∀ r ∈ results, ∀ q : SwapQuote, r ≠ Except.ok q := by
  induction results with
  | nil => simp [collectQuotes]
  | cons r rest ih =>
    cases r with
    | ok q => simp [collectQuotes]
    | error e => simpa [collectQuotes] using ih

lemma ok_mem_collectQuotes (results : List (Except String SwapQuote)) (q : SwapQuote)
    (h : Except.ok q ∈ results) : q ∈ collectQuotes results := by
  induction results with
  | nil => cases h
  | cons r rest ih =>
    rcases List.mem_cons.mp h with h1 | h2
    · subst h1; simp [collectQuotes]
    · cases r with
      | ok p => simp [collectQuotes]; right; exact ih h2
      | error e => simpa [collectQuotes] using ih h2

lemma selBy_mem (key : SwapQuote → ℚ) (q0 : SwapQuote) (qs : List SwapQuote) :
    selBy key q0 qs ∈ q0 :: qs := by
  induction qs generalizing q0 with
  | nil => simp [selBy]
  | cons q qs ih =>
    by_cases h : key q > key q0
    · have := ih q
      simp only [selBy, List.foldl_cons, if_pos h] at *
      rcases List.mem_cons.mp this with h1 | h2
      · exact List.mem_cons.mpr (Or.inr (List.mem_cons.mpr (Or.inl h1)))
      · exact List.mem_cons.mpr (Or.inr (List.mem_cons.mpr (Or.inr h2)))
    · have := ih q0
      simp only [selBy, List.foldl_cons, if_neg h] at *
      rcases List.mem_cons.mp this with h1 | h2
      · exact List.mem_cons.mpr (Or.inl h1)
      · exact List.mem_cons.mpr (Or.inr (List.mem_cons.mpr (Or.inr h2)))

lemma selBy_le (key : SwapQuote → ℚ) (q0 : SwapQuote) (qs : List SwapQuote) :
    ∀ x ∈ q0 :: qs, key x ≤ key (selBy key q0 qs) := by
  induction qs generalizing q0 with
  | nil =>
    intro x hx
    rcases List.mem_cons.mp hx with h | h
    · subst h; simp [selBy]
    · cases h
  | cons q qs ih =>
    intro x hx
    by_cases h : key q > key q0
    · simp only [selBy, List.foldl_cons, if_pos h]
      rcases List.mem_cons.mp hx with h1 | h2
      · subst h1
        calc key x ≤ key q := le_of_lt h
          _ ≤ key (selBy key q qs) := ih q q (List.mem_cons_self q qs)
      · exact ih q x h2
    · simp only [selBy, List.foldl_cons, if_neg h]
      rcases List.mem_cons.mp hx with h1 | h2
      · rw [h1]; exact ih q0 q0 (List.mem_cons_self q0 qs)
      · rcases List.mem_cons.mp h2 with h3 | h4
        · subst h3
          calc key x ≤ key q0 := le_of_not_lt h
            _ ≤ key (selBy key q0 qs) := ih q0 q0 (List.mem_cons_self q0 qs)
        · exact ih q0 x (List.mem_cons.mpr (Or.inr h4))

lemma getBestQuote_ok_spec (results : List (Except String SwapQuote)) (b : SwapQuote)
    (h : AggregatorService.getBestQuote results = Except.ok b) :
    b ∈ collectQuotes results ∧ ∀ x ∈ collectQuotes results, x.toAmount ≤ b.toAmount := by
  unfold AggregatorService.getBestQuote at h
  cases hc : collectQuotes results with
  | nil => rw [hc] at h; cases h
  | cons q qs =>
    rw [hc] at h
    have hb : b = selBy (fun x => x.toAmount) q qs := by
      cases h; rfl
    subst hb
    exact ⟨selBy_mem _ q qs, selBy_le _ q qs⟩

lemma getCrossChainQuote_ok_spec (results : List (Except String SwapQuote)) (b : SwapQuote)
    (h : CrossChainRouter.getCrossChainQuote results = Except.ok b) :
    b ∈ collectQuotes results ∧ ∀ x ∈ collectQuotes results, netAmount x ≤ netAmount b := by
  unfold CrossChainRouter.getCrossChainQuote at h
  cases hc : collectQuotes results with
  | nil => rw [hc] at h; cases h
  | cons q qs =>
    rw [hc] at h
    have hb : b = selBy netAmount q qs := by
      cases h; rfl
    subst hb
    exact ⟨selBy_mem _ q qs, selBy_le _ q qs⟩

/- Embedding of QuoteService (src/lib/quote-service.ts). -/

/-- Form-level data, from src/lib/types.ts (SwapFormData).  The source's
`slippageTolerance: number` is only ever forwarded and interpolated into the
fingerprint key, so it is embedded by its decimal rendering (the string that
the template literal produces). -/
structure SwapFormData where
  fromToken : Option Token
  toToken : Option Token
  fromChain : Option Chain
  toChain : Option Chain
  amount : String
  slippageTolerance : String
deriving DecidableEq

/-- The normalized request built inside QuoteService.getQuote.  As for the
form data, the optional `slippage` number is embedded by the string its
template-literal interpolation produces. -/
structure QuoteRequest where
  fromToken : Token
  toToken : Token
  amount : String
  fromChainId : Nat
  toChainId : Nat
  slippage : String
deriving DecidableEq

/-- A cache entry (interface CachedQuote). -/
structure CachedQuote where
  quote : SwapQuote
  timestamp : ℤ
  requestHash : String
deriving DecidableEq

/-- The `Map<string, CachedQuote>` of QuoteService, as an association list in
insertion order. -/
abbrev Cache := List (String × CachedQuote)

def emptyS : String := ""

def dashS : String := "-"

def dotS : String := "."

def invalidParamsMsg : String := "Invalid swap parameters"

def defaultRetryMsg : String := "Failed to get quote after all retries"

namespace QuoteService

def CACHE_DURATION : ℤ := 30000

def MAX_RETRIES : Nat := 3

def RETRY_DELAY : Nat := 1000

/-- JavaScript String.prototype.padEnd with a one-character pad. -/
def padEnd (s : String) (n : Nat) (c : Char) : String :=
  s ++ String.mk (List.replicate (n - s.length) c)

/-- JavaScript String.prototype.slice(0, n): the first `n` code units. -/
def strTake (s : String) (n : Nat) : String :=
  String.mk (s.data.take n)

/-- Worker for `strSplit`: walk the code units, cutting at each separator;
the accumulator holds the current piece reversed. -/
def jsSplitAux (sep : Char) : List Char → List Char → List String
  | [], acc => [String.mk acc.reverse]
  | x :: xs, acc =>
    if x = sep then String.mk acc.reverse :: jsSplitAux sep xs []
    else jsSplitAux sep xs (x :: acc)

/-- JavaScript String.prototype.split with a one-character separator. -/
def strSplit (s : String) (sep : Char) : List String :=
  jsSplitAux sep s.data []

/-- QuoteService.convertToWei: split the human amount at the dot, pad the
fractional part with zeros to `decimals` digits, truncate at `decimals`
digits, and append to the integer part. -/
def convertToWei (amount : String) (decimals : Nat) : String :=
  let parts := strSplit amount '.'
  let integerPart := parts.headD emptyS
  let decimalString := (parts.drop 1).headD emptyS
  let paddedDecimal := strTake (padEnd decimalString decimals '0') decimals
  integerPart ++ paddedDecimal

/-- The template-literal key of QuoteService.generateRequestHash, the six
fields joined with a dash. -/
def requestKey (r : QuoteRequest) : String :=
  r.fromToken.address ++ dashS ++ r.toToken.address ++ dashS ++ r.amount ++ dashS
    ++ Nat.repr r.fromChainId ++ dashS ++ Nat.repr r.toChainId ++ dashS ++ r.slippage

/-- Wrap an integer to the signed 32-bit range, as the JavaScript bitwise
operators do. -/
def toInt32 (n : ℤ) : ℤ :=
  (n + 2 ^ 31) % 2 ^ 32 - 2 ^ 31

/-- QuoteService.hashString: the `h := (h << 5) - h + c` loop over UTF-16
code units, each step wrapped to a signed 32-bit integer; `(h << 5) - h + c`
wrapped equals `31 * h + c` wrapped. -/
def hashString (s : String) : ℤ :=
  s.data.foldl (fun h c => toInt32 (31 * h + c.toNat)) 0

/-- QuoteService.generateRequestHash: decimal rendering of the 32-bit hash of
the joined key. -/
def generateRequestHash (r : QuoteRequest) : String :=
  toString (hashString (requestKey r))

/-- Map.prototype.get on the association list. -/
def cacheFind (cache : Cache) (h : String) : Option CachedQuote :=
  (cache.find? (fun p => p.1 == h)).map Prod.snd

/-- Map.prototype.delete on the association list. -/
def cacheDelete (cache : Cache) (h : String) : Cache :=
  cache.filter (fun p => p.1 != h)

/-- Map.prototype.set on the association list: replace in place when the key
is present, append otherwise. -/
def cacheSet (cache : Cache) (h : String) (v : CachedQuote) : Cache :=
  if cache.any (fun p => p.1 == h) then
    cache.map (fun p => if p.1 == h then (h, v) else p)
  else cache ++ [(h, v)]

/-- QuoteService.getCachedQuote at time `now`: a missing key is a miss; an
entry older than CACHE_DURATION, or whose quote's `validUntil` has passed, is
deleted and reported as a miss; otherwise the quote is returned.  The second
component is the cache after the read. -/
def getCachedQuote (cache : Cache) (requestHash : String) (now : ℤ) :
    Option SwapQuote × Cache :=
  match cacheFind cache requestHash with
  | none => (none, cache)
  | some cached =>
    if now - cached.timestamp > CACHE_DURATION then (none, cacheDelete cache requestHash)
    else if cached.quote.validUntil < now then (none, cacheDelete cache requestHash)
    else (some cached.quote, cache)

/-- QuoteService.cleanupCache: drop every entry that is stale by age or by
quote validity. -/
def cleanupCache (cache : Cache) (now : ℤ) : Cache :=
  cache.filter fun p =>
    !(decide (now - p.2.timestamp > CACHE_DURATION) || decide (p.2.quote.validUntil < now))

/-- QuoteService.cacheQuote: insert the entry, then run a cleanup pass when
the size exceeds 100. -/
def cacheQuote (cache : Cache) (requestHash : String) (q : SwapQuote) (now : ℤ) : Cache :=
  let c := cacheSet cache requestHash ⟨q, now, requestHash⟩
  if c.length > 100 then cleanupCache c now else c

/-- The retry loop of QuoteService.getQuote, lines 47-65.  `fetch n` is the
outcome of `defaultAggregatorService.getBestQuote` on round `n` (1-indexed);
the first component is the final outcome, the second the list of waits (in
ms) performed via `delay(RETRY_DELAY * attempt)`, the third the number of
rounds that were invoked.  The first argument of the recursion is the number
of attempts still allowed, so `attempt < MAX_RETRIES` is `remaining != 0`. -/
def retryGo (fetch : Nat → Except String SwapQuote) (retryDelay : Nat) :
    Nat → Nat → Option String → List Nat → Except String SwapQuote × List Nat × Nat
  | 0, _, lastError, delays => (Except.error (lastError.getD defaultRetryMsg), delays, 0)
  | remaining + 1, attempt, _, delays =>
    match fetch attempt with
    | Except.ok q => (Except.ok q, delays, 1)
    | Except.error e =>
      let delays2 := if remaining != 0 then delays ++ [retryDelay * attempt] else delays
      let r := retryGo fetch retryDelay remaining (attempt + 1) (some e) delays2
      (r.1, r.2.1, r.2.2 + 1)

/-- The request QuoteService.getQuote builds from the (present) form fields:
the human amount is converted to the smallest unit of the source token. -/
def toQuoteRequest (ft tt : Token) (fc tc : Chain) (amount slippage : String) : QuoteRequest :=
  { fromToken := ft, toToken := tt, amount := convertToWei amount ft.decimals,
    fromChainId := fc.id, toChainId := tc.id, slippage := slippage }

/-- QuoteService.getQuote at time `now` over cache state `cache`, with
`fetch` the per-round aggregator oracle.  Result: (outcome, cache after the
call, waits performed, number of aggregator rounds invoked).  The guard
throws when a token, a chain, or the amount is missing (the empty string is
the falsy amount); then the cache is consulted; on a miss the retry loop
runs and a success is stored in the cache. -/
def getQuote (fd : SwapFormData) (now : ℤ) (cache : Cache)
    (fetch : Nat → Except String SwapQuote) :
    Except String SwapQuote × Cache × List Nat × Nat :=
  match fd.fromToken, fd.toToken, fd.fromChain, fd.toChain with
  | some ft, some tt, some fc, some tc =>
    if fd.amount = emptyS then (Except.error invalidParamsMsg, cache, [], 0)
    else
      let request := toQuoteRequest ft tt fc tc fd.amount fd.slippageTolerance
      let requestHash := generateRequestHash request
      let cr := getCachedQuote cache requestHash now
      match cr.1 with
      | some q => (Except.ok q, cr.2, [], 0)
      | none =>
        let r := retryGo fetch RETRY_DELAY MAX_RETRIES 1 none []
        match r.1 with
        | Except.ok q => (Except.ok q, cacheQuote cr.2 requestHash q now, r.2.1, r.2.2)
        | Except.error e => (Except.error e, cr.2, r.2.1, r.2.2)
  | _, _, _, _ => (Except.error invalidParamsMsg, cache, [], 0)

end QuoteService

namespace SmartRouter

/-- SmartRouter.getOptimalQuote (smart-router source): `cross` is the outcome
of `defaultCrossChainRouter.getCrossChainQuote` on the bridge request built
from the form, `sameChain` the outcome of `quoteService.getQuote` on the
form.  The boolean records whether the cross-chain router was invoked.  When
the chain ids differ the cross-chain outcome is tried first: its success is
returned, its failure falls through to the same-chain path; when the chain
ids are equal the same-chain path is used directly. -/
def getOptimalQuote (fd : SwapFormData) (cross sameChain : Except String SwapQuote) :
    Except String SwapQuote × Bool :=
  match fd.fromToken, fd.toToken, fd.fromChain, fd.toChain with
  | some _, some _, some fc, some tc =>
    if fc.id ≠ tc.id then
      match cross with
      | Except.ok q => (Except.ok q, true)
      | Except.error _ => (sameChain, true)
    else (sameChain, false)
  | _, _, _, _ => (Except.error invalidParamsMsg, false)

end SmartRouter

/- Concrete values used by the witnesses and counterexamples. -/

def symT : String := "T"

def nameT : String := "Tok"

def addrFrom : String := "0x1111111111111111111111111111111111111111"

def addrTo : String := "0x2222222222222222222222222222222222222222"

def addrAa : String := "0xAa00000000000000000000000000000000000000"

def addrBB : String := "0xBB00000000000000000000000000000000000000"

def tokFrom : Token :=
  { address := addrFrom, symbol := symT, name := nameT, decimals := 6, chainId := 8453 }

def tokTo : Token :=
  { address := addrTo, symbol := symT, name := nameT, decimals := 6, chainId := 8453 }

def demoRoute : RouteDetails :=
  { path := [], exchanges := [], estimatedGas := emptyS, priceImpact := 0, slippage := 0 }

/-- Convenience constructor for a demo quote with the given amounts. -/
def mkQuote (fromAmt toAmt gas : ℚ) (validUntil : ℤ) : SwapQuote :=
  { fromToken := tokFrom, toToken := tokTo, fromAmount := fromAmt, toAmount := toAmt,
    priceImpact := 0, gasEstimate := gas, route := demoRoute, validUntil := validUntil }

/-- Convenience constructor for a fully populated form. -/
def mkFormData (ft tt : Token) (fc tc : Chain) (amount slippage : String) : SwapFormData :=
  { fromToken := some ft, toToken := some tt, fromChain := some fc, toChain := some tc,
    amount := amount, slippageTolerance := slippage }

def q100 : SwapQuote := mkQuote 1 100 0 0

def q105 : SwapQuote := mkQuote 1 105 0 0

def q98 : SwapQuote := mkQuote 1 98 0 0

def demoDexResults : List (Except String SwapQuote) :=
  [Except.ok q100, Except.ok q105, Except.ok q98]

/-- C1: on a non-empty candidate set collected from the same-chain providers
that succeeded, AggregatorService.getBestQuote returns a candidate whose
toAmount is maximal among the collected candidates. -/
theorem C1_selector_max_toAmount (results : List (Except String SwapQuote))
    (hne : collectQuotes results ≠ []) :
    ∃ b, AggregatorService.getBestQuote results = Except.ok b ∧
      b ∈ collectQuotes results ∧ ∀ x ∈ collectQuotes results, x.toAmount ≤ b.toAmount := by
  have hok : ∃ b, AggregatorService.getBestQuote results = Except.ok b := by
    unfold AggregatorService.getBestQuote
    cases hc : collectQuotes results with
    | nil => exact absurd hc hne
    | cons q qs => exact ⟨_, rfl⟩
  obtain ⟨b, hb⟩ := hok
  exact ⟨b, hb, (getBestQuote_ok_spec results b hb).1, (getBestQuote_ok_spec results b hb).2⟩

/-- Witness for C1: with candidates of toAmount 100, 105, 98 the selector
picks the 105 candidate. -/
theorem C1_witness :
    (∃ b, AggregatorService.getBestQuote demoDexResults = Except.ok b ∧
        b ∈ collectQuotes demoDexResults ∧
        ∀ x ∈ collectQuotes demoDexResults, x.toAmount ≤ b.toAmount)
    ∧ AggregatorService.getBestQuote demoDexResults = Except.ok q105 := by
  constructor
  · exact C1_selector_max_toAmount demoDexResults (by decide)
  · decide

def qNet100g5 : SwapQuote := mkQuote 1 100 5 0

def qNet103g6 : SwapQuote := mkQuote 1 103 6 0

def qNet100g1 : SwapQuote := mkQuote 1 100 1 0

def demoBridgeResults : List (Except String SwapQuote) :=
  [Except.ok qNet100g5, Except.ok qNet103g6]

def demoBridgeResults2 : List (Except String SwapQuote) :=
  [Except.ok qNet100g1, Except.ok qNet103g6]

/-- C2: on a non-empty candidate set collected from the cross-chain bridges
that succeeded, CrossChainRouter.getCrossChainQuote returns a candidate
maximizing the net amount toAmount minus gasEstimate. -/
theorem C2_crosschain_max_net (results : List (Except String SwapQuote))
    (hne : collectQuotes results ≠ []) :
    ∃ b, CrossChainRouter.getCrossChainQuote results = Except.ok b ∧
      b ∈ collectQuotes results ∧ ∀ x ∈ collectQuotes results, netAmount x ≤ netAmount b := by
  have hok : ∃ b, CrossChainRouter.getCrossChainQuote results = Except.ok b := by
    unfold CrossChainRouter.getCrossChainQuote
    cases hc : collectQuotes results with
    | nil => exact absurd hc hne
    | cons q qs => exact ⟨_, rfl⟩
  obtain ⟨b, hb⟩ := hok
  exact ⟨b, hb, (getCrossChainQuote_ok_spec results b hb).1,
    (getCrossChainQuote_ok_spec results b hb).2⟩

/-- Witness for C2: with candidates (toAmount 100, gas 5) and (toAmount 103,
gas 6) the router picks the second (net 97 over 95); with (toAmount 100, gas
1) and (toAmount 103, gas 6) it picks the first (net 99 over 97) although the
second has the higher raw toAmount. -/
theorem C2_witness :
    (∃ b, CrossChainRouter.getCrossChainQuote demoBridgeResults = Except.ok b ∧
        b ∈ collectQuotes demoBridgeResults ∧
        ∀ x ∈ collectQuotes demoBridgeResults, netAmount x ≤ netAmount b)
    ∧ CrossChainRouter.getCrossChainQuote demoBridgeResults = Except.ok qNet103g6
    ∧ CrossChainRouter.getCrossChainQuote demoBridgeResults2 = Except.ok qNet100g1 := by
  have h1 : netAmount qNet100g5 < netAmount qNet103g6 := by
    norm_num [netAmount, qNet100g5, qNet103g6, mkQuote]
  have h2 : ¬ netAmount qNet100g1 < netAmount qNet103g6 := by
    norm_num [netAmount, qNet100g1, qNet103g6, mkQuote]
  refine ⟨C2_crosschain_max_net demoBridgeResults (by decide), ?_, ?_⟩
  · simp [CrossChainRouter.getCrossChainQuote, demoBridgeResults, collectQuotes, selBy, h1]
  · simp [CrossChainRouter.getCrossChainQuote, demoBridgeResults2, collectQuotes, selBy, h2]

def timeoutMsg : String := "Request timeout"

def status500Msg : String := "DEX API error: 500 Internal Server Error"

def demoPartialResults : List (Except String SwapQuote) :=
  [Except.error timeoutMsg, Except.error status500Msg, Except.ok q100]

/-- C5: the collection loop of AggregatorService.getBestQuote absorbs each
individual provider failure; the call succeeds whenever at least one provider
succeeded, and it fails with the all-providers-failed error exactly when the
collected candidate set is empty, which happens exactly when no provider
returned a quote. -/
theorem C5_partial_failure (results : List (Except String SwapQuote)) :
    ((∃ q : SwapQuote, Except.ok q ∈ results) →
        ∃ b, AggregatorService.getBestQuote results = Except.ok b)
    ∧ (AggregatorService.getBestQuote results = Except.error allDexFailedMsg ↔
        collectQuotes results = [])
    ∧ (collectQuotes results = [] ↔ ∀ r ∈ results, ∀ q : SwapQuote, r ≠ Except.ok q) := by
  refine ⟨?_, ?_, collectQuotes_nil_iff results⟩
  · rintro ⟨q, hq⟩
    have hmem := ok_mem_collectQuotes results q hq
    unfold AggregatorService.getBestQuote
    cases hc : collectQuotes results with
    | nil => rw [hc] at hmem; cases hmem
    | cons p ps => exact ⟨_, rfl⟩
  · unfold AggregatorService.getBestQuote
    cases hc : collectQuotes results with
    | nil => simp
    | cons p ps => simp

/-- Witness for C5: three providers of which two fail (timeout, HTTP 500) and
one succeeds; the candidate set is exactly the one successful quote and the
call returns it. -/
theorem C5_witness :
    (∃ b, AggregatorService.getBestQuote demoPartialResults = Except.ok b)
    ∧ collectQuotes demoPartialResults = [q100]
    ∧ AggregatorService.getBestQuote demoPartialResults = Except.ok q100 := by
  refine ⟨(C5_partial_failure demoPartialResults).1 ⟨q100, by decide⟩, by decide, by decide⟩

def qTieA : SwapQuote := mkQuote 1 100 0 0

def qTieB : SwapQuote := mkQuote 2 100 0 0

/-- Counterexample to C10: two distinct candidates with equal toAmount.  The
reduce keeps the earlier candidate on a tie, so the two orders of the same
candidate set select different quotes. -/
theorem C10_counterexample :
    List.Perm [Except.ok qTieA, Except.ok qTieB]
      ([Except.ok qTieB, Except.ok qTieA] : List (Except String SwapQuote))
    ∧ AggregatorService.getBestQuote [Except.ok qTieA, Except.ok qTieB] = Except.ok qTieA
    ∧ AggregatorService.getBestQuote [Except.ok qTieB, Except.ok qTieA] = Except.ok qTieB
    ∧ qTieA ≠ qTieB := by
  refine ⟨List.Perm.swap _ _ _, by decide, by decide, by decide⟩

lemma sel_perm_spec (key : SwapQuote → ℚ) (c1 c2 : List SwapQuote) (hp : c1.Perm c2)
    (b1 b2 : SwapQuote)
    (h1m : b1 ∈ c1) (h1max : ∀ x ∈ c1, key x ≤ key b1)
    (h2m : b2 ∈ c2) (h2max : ∀ x ∈ c2, key x ≤ key b2) :
    key b1 = key b2 ∧ ((c1.map key).Nodup → b1 = b2) := by
  have hb2c1 : b2 ∈ c1 := hp.mem_iff.mpr h2m
  have hb1c2 : b1 ∈ c2 := hp.mem_iff.mp h1m
  have hk : key b1 = key b2 := le_antisymm (h2max b1 hb1c2) (h1max b2 hb2c1)
  exact ⟨hk, fun hnd => List.inj_on_of_nodup_map hnd h1m hb2c1 hk⟩

lemma collectQuotes_perm (r1 r2 : List (Except String SwapQuote)) (hperm : r1.Perm r2) :
    (collectQuotes r1).Perm (collectQuotes r2) := by
  rw [collectQuotes_eq_filterMap, collectQuotes_eq_filterMap]
  exact hperm.filterMap _

/-- Amended C10: over a permutation of the provider outcomes both selectors
return a candidate with the same (maximal) selection key; the selected quote
itself is order-independent whenever the selection keys of the candidate set
are pairwise distinct, but on a tie the earliest maximal candidate wins, so
the quote may depend on arrival order. -/
theorem C10_order_independent (r1 r2 : List (Except String SwapQuote)) (hperm : r1.Perm r2) :
    (∀ b1 b2, AggregatorService.getBestQuote r1 = Except.ok b1 →
        AggregatorService.getBestQuote r2 = Except.ok b2 →
        b1.toAmount = b2.toAmount ∧
          (((collectQuotes r1).map (fun q => q.toAmount)).Nodup → b1 = b2))
    ∧ (∀ b1 b2, CrossChainRouter.getCrossChainQuote r1 = Except.ok b1 →
        CrossChainRouter.getCrossChainQuote r2 = Except.ok b2 →
        netAmount b1 = netAmount b2 ∧
          (((collectQuotes r1).map netAmount).Nodup → b1 = b2)) := by
  have hcp := collectQuotes_perm r1 r2 hperm
  constructor
  · intro b1 b2 h1 h2
    have s1 := getBestQuote_ok_spec r1 b1 h1
    have s2 := getBestQuote_ok_spec r2 b2 h2
    exact sel_perm_spec (fun q => q.toAmount) _ _ hcp b1 b2 s1.1 s1.2 s2.1 s2.2
  · intro b1 b2 h1 h2
    have s1 := getCrossChainQuote_ok_spec r1 b1 h1
    have s2 := getCrossChainQuote_ok_spec r2 b2 h2
    exact sel_perm_spec netAmount _ _ hcp b1 b2 s1.1 s1.2 s2.1 s2.2

/-- Witness for the amended C10: with distinct toAmounts 100 and 105 the two
orders select the same quote. -/
theorem C10_witness :
    AggregatorService.getBestQuote [Except.ok q100, Except.ok q105] = Except.ok q105
    ∧ AggregatorService.getBestQuote [Except.ok q105, Except.ok q100] = Except.ok q105
    ∧ q105.toAmount = q105.toAmount ∧ q105 = q105 := by
  have h := (C10_order_independent [Except.ok q100, Except.ok q105]
      [Except.ok q105, Except.ok q100] (List.Perm.swap _ _ _)).1 q105 q105
      (by decide) (by decide)
  exact ⟨by decide, by decide, h.1, h.2 (by decide)⟩

lemma cacheQuote_empty (f : String) (q : SwapQuote) (t0 : ℤ) :
    QuoteService.cacheQuote [] f q t0 = [(f, ⟨q, t0, f⟩)] := by
  simp [QuoteService.cacheQuote, QuoteService.cacheSet]

def qC6 : SwapQuote := mkQuote 1 100 0 50000

def fpC6 : String := "fp"

/-- Counterexample to C6: a quote inserted at t0 = 0 with validUntil = 50000
is still returned at t = 30000, although t is at (not below) the TTL bound
min(t0 + 30s, validUntil): the source expires strictly after the bound. -/
theorem C6_counterexample :
    min ((0 : ℤ) + 30000) qC6.validUntil ≤ 30000
    ∧ (QuoteService.getCachedQuote (QuoteService.cacheQuote [] fpC6 qC6 0) fpC6 30000).1
        = some qC6 := by
  constructor
  · simp [qC6, mkQuote]
  · decide

/-- Amended C6: a quote inserted at t0 under fingerprint f is returned by a
read at any t ≤ min(t0 + 30s, validUntil), boundary instants included, and a
read at any t strictly beyond that bound is a miss that evicts the entry. -/
theorem C6_cache_ttl (q : SwapQuote) (f : String) (t0 t : ℤ) :
    ((QuoteService.getCachedQuote (QuoteService.cacheQuote [] f q t0) f t).1 = some q
      ↔ (t ≤ t0 + 30000 ∧ t ≤ q.validUntil))
    ∧ (t > min (t0 + 30000) q.validUntil →
        QuoteService.getCachedQuote (QuoteService.cacheQuote [] f q t0) f t = (none, [])) := by
  rw [cacheQuote_empty]
  unfold QuoteService.getCachedQuote
  have hfind : QuoteService.cacheFind [(f, ⟨q, t0, f⟩)] f = some ⟨q, t0, f⟩ := by
    simp [QuoteService.cacheFind, List.find?]
  have hdel : QuoteService.cacheDelete [(f, ⟨q, t0, f⟩)] f = [] := by
    simp [QuoteService.cacheDelete, List.filter]
  rw [hfind, hdel]
  simp only [QuoteService.CACHE_DURATION]
  constructor
  · split_ifs with h1 h2
    · simp; omega
    · simp; omega
    · simp; omega
  · intro hmin
    split_ifs with h1 h2
    · rfl
    · rfl
    · exfalso; omega

/-- Witness for the amended C6: at t = 40000 > min(30000, 50000) the read
misses and evicts; at t = 30000 the iff gives the hit. -/
theorem C6_witness :
    QuoteService.getCachedQuote (QuoteService.cacheQuote [] fpC6 qC6 0) fpC6 40000 = (none, [])
    ∧ ((QuoteService.getCachedQuote (QuoteService.cacheQuote [] fpC6 qC6 0) fpC6 30000).1
        = some qC6 ↔ ((30000 : ℤ) ≤ 0 + 30000 ∧ (30000 : ℤ) ≤ qC6.validUntil)) := by
  constructor
  · exact (C6_cache_ttl qC6 fpC6 0 40000).2 (by simp [qC6, mkQuote])
  · exact (C6_cache_ttl qC6 fpC6 0 30000).1

def slip05 : String := "0.5"

def amt1e6 : String := "1000000"

def tokAa : Token :=
  { address := addrAa, symbol := symT, name := nameT, decimals := 6, chainId := 8453 }

def tokBB : Token :=
  { address := addrBB, symbol := symT, name := nameT, decimals := 6, chainId := 8453 }

def reqAa : QuoteRequest :=
  { fromToken := tokFrom, toToken := tokAa, amount := amt1e6, fromChainId := 8453,
    toChainId := 8453, slippage := slip05 }

def reqBB : QuoteRequest :=
  { fromToken := tokFrom, toToken := tokBB, amount := amt1e6, fromChainId := 8453,
    toChainId := 8453, slippage := slip05 }

/-- Counterexample to C7: two requests equal in every field except the
toToken address (0xAa... against 0xBB...) receive the same fingerprint: the
32-bit string hash collides, since 31*65 + 97 = 31*66 + 66. -/
theorem C7_counterexample :
    reqAa.fromToken = reqBB.fromToken
    ∧ reqAa.amount = reqBB.amount
    ∧ reqAa.fromChainId = reqBB.fromChainId
    ∧ reqAa.toChainId = reqBB.toChainId
    ∧ reqAa.slippage = reqBB.slippage
    ∧ reqAa.toToken.address ≠ reqBB.toToken.address
    ∧ QuoteService.generateRequestHash reqAa = QuoteService.generateRequestHash reqBB := by
  refine ⟨rfl, rfl, rfl, rfl, rfl, by decide, by decide⟩

/-- Amended C7: the fingerprint is deterministic and depends only on the six
key fields (the joined addresses, smallest-unit amount, chain ids and
slippage) — equal normalized requests always agree — but requests differing
in a single field are not guaranteed distinct fingerprints, the 32-bit hash
admitting collisions. -/
theorem C7_fingerprint_key_fields (a b : QuoteRequest)
    (h1 : a.fromToken.address = b.fromToken.address)
    (h2 : a.toToken.address = b.toToken.address)
    (h3 : a.amount = b.amount)
    (h4 : a.fromChainId = b.fromChainId)
    (h5 : a.toChainId = b.toChainId)
    (h6 : a.slippage = b.slippage) :
    QuoteService.generateRequestHash a = QuoteService.generateRequestHash b := by
  unfold QuoteService.generateRequestHash QuoteService.requestKey
  rw [h1, h2, h3, h4, h5, h6]

def symU : String := "U"

def tokAaSym : Token :=
  { address := addrAa, symbol := symU, name := nameT, decimals := 6, chainId := 8453 }

def reqAaSym : QuoteRequest :=
  { fromToken := tokFrom, toToken := tokAaSym, amount := amt1e6, fromChainId := 8453,
    toChainId := 8453, slippage := slip05 }

/-- Witness for the amended C7: two requests agreeing on all six key fields
(the toToken symbol differs, the address does not) get the same
fingerprint. -/
theorem C7_witness :
    QuoteService.generateRequestHash reqAa = QuoteService.generateRequestHash reqAaSym
    ∧ reqAa ≠ reqAaSym :=
  ⟨C7_fingerprint_key_fields reqAa reqAaSym rfl rfl rfl rfl rfl rfl, by decide⟩

/-- Modelled from the spec's words on amount normalization, for comparison
with the source's convertToWei: the fractional part is truncated at `d`
digits when longer and padded with zeros to `d` digits otherwise. -/
def specPadOrTruncate (fp : String) (d : Nat) : String :=
  if d ≤ fp.length then QuoteService.strTake fp d
  else fp ++ String.mk (List.replicate (d - fp.length) '0')

lemma strTake_padEnd (fp : String) (d : Nat) :
    QuoteService.strTake (QuoteService.padEnd fp d '0') d = specPadOrTruncate fp d := by
  apply String.ext
  by_cases h : d ≤ fp.length
  · have h0 : d - fp.length = 0 := by omega
    simp [QuoteService.strTake, QuoteService.padEnd, specPadOrTruncate, h, h0,
      String.data_append]
  · have hlen : (fp.data ++ List.replicate (d - fp.length) '0').length = d := by
      have : fp.length = fp.data.length := rfl
      simp only [List.length_append, List.length_replicate]
      omega
    simp only [QuoteService.strTake, QuoteService.padEnd, specPadOrTruncate, if_neg h,
      String.data_append]
    exact List.take_of_length_le (le_of_eq hlen)

def amtHuman : String := "1.23456789"

def amtIp : String := "1"

def amtFrac : String := "23456789"

def amtWei : String := "1234567"

/-- C9: on an amount written as integer part, dot, fractional part, the
normalizer emits the integer part followed by the fractional part padded
with zeros to the token's `decimals` digits or truncated there — never
rounded; an amount with no dot gets `decimals` zeros appended. -/
theorem C9_convertToWei (amount ip fp : String) (d : Nat) :
    (QuoteService.strSplit amount '.' = [ip, fp] →
        QuoteService.convertToWei amount d = ip ++ specPadOrTruncate fp d)
    ∧ (QuoteService.strSplit amount '.' = [ip] →
        QuoteService.convertToWei amount d = ip ++ specPadOrTruncate emptyS d)
    ∧ QuoteService.convertToWei amtHuman 6 = amtWei := by
  refine ⟨?_, ?_, by decide⟩
  · intro hsplit
    unfold QuoteService.convertToWei
    rw [hsplit]
    simp only [List.headD, List.drop]
    rw [strTake_padEnd]
  · intro hsplit
    unfold QuoteService.convertToWei
    rw [hsplit]
    simp only [List.headD, List.drop]
    rw [strTake_padEnd]

/-- Witness for C9: the human amount 1.23456789 against a 6-decimals token
normalizes to the truncated smallest-unit string 1234567. -/
theorem C9_witness :
    QuoteService.convertToWei amtHuman 6 = amtIp ++ specPadOrTruncate amtFrac 6
    ∧ amtIp ++ specPadOrTruncate amtFrac 6 = amtWei := by
  refine ⟨(C9_convertToWei amtHuman amtIp amtFrac 6).1 (by decide), by decide⟩

def rpcS : String := "rpc"

def expS : String := "exp"

def chainBase : Chain :=
  { id := 8453, name := symT, symbol := symT, rpcUrl := rpcS, blockExplorer := expS }

def chainEth : Chain :=
  { id := 1, name := symT, symbol := symT, rpcUrl := rpcS, blockExplorer := expS }

def amt1 : String := "1"

def errBridge : String := "bridge down"

/-- C3: with all form fields present, a request across two different chain
ids first consults the cross-chain router — a success is returned as is, a
failure falls through to the same-chain quote service — while a request
within a single chain id goes to the quote service without the cross-chain
router ever being invoked (the boolean component records that invocation). -/
theorem C3_router_decision (fd : SwapFormData) (ft tt : Token) (fc tc : Chain)
    (cross sameChain : Except String SwapQuote)
    (hft : fd.fromToken = some ft) (htt : fd.toToken = some tt)
    (hfc : fd.fromChain = some fc) (htc : fd.toChain = some tc) :
    (fc.id ≠ tc.id →
        (∀ q, cross = Except.ok q →
            SmartRouter.getOptimalQuote fd cross sameChain = (Except.ok q, true))
        ∧ (∀ e, cross = Except.error e →
            SmartRouter.getOptimalQuote fd cross sameChain = (sameChain, true)))
    ∧ (fc.id = tc.id →
        SmartRouter.getOptimalQuote fd cross sameChain = (sameChain, false)) := by
  unfold SmartRouter.getOptimalQuote
  rw [hft, htt, hfc, htc]
  constructor
  · intro hne
    constructor
    · intro q hq
      subst hq
      simp [hne]
    · intro e he
      subst he
      simp [hne]
  · intro heq
    simp [heq]

/-- Witness for C3: an Ethereum-to-Base request returns the bridge success,
falls back to the same-chain quote on bridge failure, and a Base-to-Base
request goes straight to the same-chain path with the cross-chain router not
invoked. -/
theorem C3_witness :
    SmartRouter.getOptimalQuote (mkFormData tokFrom tokTo chainEth chainBase amt1 slip05)
        (Except.ok q100) (Except.ok q105) = (Except.ok q100, true)
    ∧ SmartRouter.getOptimalQuote (mkFormData tokFrom tokTo chainEth chainBase amt1 slip05)
        (Except.error errBridge) (Except.ok q105) = (Except.ok q105, true)
    ∧ SmartRouter.getOptimalQuote (mkFormData tokFrom tokTo chainBase chainBase amt1 slip05)
        (Except.error errBridge) (Except.ok q105) = (Except.ok q105, false) := by
  refine ⟨?_, ?_, ?_⟩
  · exact ((C3_router_decision (mkFormData tokFrom tokTo chainEth chainBase amt1 slip05)
      tokFrom tokTo chainEth chainBase (Except.ok q100) (Except.ok q105)
      rfl rfl rfl rfl).1 (by decide)).1 q100 rfl
  · exact ((C3_router_decision (mkFormData tokFrom tokTo chainEth chainBase amt1 slip05)
      tokFrom tokTo chainEth chainBase (Except.error errBridge) (Except.ok q105)
      rfl rfl rfl rfl).1 (by decide)).2 errBridge rfl
  · exact (C3_router_decision (mkFormData tokFrom tokTo chainBase chainBase amt1 slip05)
      tokFrom tokTo chainBase chainBase (Except.error errBridge) (Except.ok q105)
      rfl rfl rfl rfl).2 rfl

lemma retryGo_succ (fetch : Nat → Except String SwapQuote) (rd remaining attempt : Nat)
    (le : Option String) (delays : List Nat) :
    QuoteService.retryGo fetch rd (remaining + 1) attempt le delays
      = match fetch attempt with
        | Except.ok q => (Except.ok q, delays, 1)
        | Except.error e =>
          let delays2 := if remaining != 0 then delays ++ [rd * attempt] else delays
          let r := QuoteService.retryGo fetch rd remaining (attempt + 1) (some e) delays2
          (r.1, r.2.1, r.2.2 + 1) := by
  rfl

lemma retryGo_pos (fetch : Nat → Except String SwapQuote) (rd n attempt : Nat)
    (le : Option String) (delays : List Nat) :
    1 ≤ (QuoteService.retryGo fetch rd (n + 1) attempt le delays).2.2 := by
  rw [retryGo_succ]
  cases h : fetch attempt with
  | ok q => simp
  | error e => simp

/-- Reduction of QuoteService.getQuote on the cache-miss path: with all form
fields present and a non-empty amount, a miss on the request fingerprint
makes the call run the retry loop, cache its successful outcome, and forward
its delays and round count. -/
lemma getQuote_miss_eq (ft tt : Token) (fc tc : Chain) (amount slippage : String)
    (now : ℤ) (cache : Cache) (fetch : Nat → Except String SwapQuote) (rh : String)
    (hamt : amount ≠ emptyS)
    (hrh : rh = QuoteService.generateRequestHash
        (QuoteService.toQuoteRequest ft tt fc tc amount slippage))
    (hmiss : (QuoteService.getCachedQuote cache rh now).1 = none) :
    QuoteService.getQuote (mkFormData ft tt fc tc amount slippage) now cache fetch
      = match (QuoteService.retryGo fetch QuoteService.RETRY_DELAY
            QuoteService.MAX_RETRIES 1 none []).1 with
        | Except.ok q =>
            (Except.ok q,
              QuoteService.cacheQuote (QuoteService.getCachedQuote cache rh now).2 rh q now,
              (QuoteService.retryGo fetch QuoteService.RETRY_DELAY
                QuoteService.MAX_RETRIES 1 none []).2.1,
              (QuoteService.retryGo fetch QuoteService.RETRY_DELAY
                QuoteService.MAX_RETRIES 1 none []).2.2)
        | Except.error e =>
            (Except.error e, (QuoteService.getCachedQuote cache rh now).2,
              (QuoteService.retryGo fetch QuoteService.RETRY_DELAY
                QuoteService.MAX_RETRIES 1 none []).2.1,
              (QuoteService.retryGo fetch QuoteService.RETRY_DELAY
                QuoteService.MAX_RETRIES 1 none []).2.2) := by
  subst hrh
  simp only [QuoteService.getQuote, mkFormData, if_neg hamt, hmiss]

lemma retryGo_ok (fetch : Nat → Except String SwapQuote) (rd remaining attempt : Nat)
    (le : Option String) (delays : List Nat) (q : SwapQuote)
    (h : fetch attempt = Except.ok q) :
    QuoteService.retryGo fetch rd (remaining + 1) attempt le delays
      = (Except.ok q, delays, 1) := by
  rw [retryGo_succ, h]

lemma retryGo_err (fetch : Nat → Except String SwapQuote) (rd remaining attempt : Nat)
    (le : Option String) (delays : List Nat) (e : String)
    (h : fetch attempt = Except.error e) :
    QuoteService.retryGo fetch rd (remaining + 1) attempt le delays
      = ((QuoteService.retryGo fetch rd remaining (attempt + 1) (some e)
            (if remaining != 0 then delays ++ [rd * attempt] else delays)).1,
          (QuoteService.retryGo fetch rd remaining (attempt + 1) (some e)
            (if remaining != 0 then delays ++ [rd * attempt] else delays)).2.1,
          (QuoteService.retryGo fetch rd remaining (attempt + 1) (some e)
            (if remaining != 0 then delays ++ [rd * attempt] else delays)).2.2 + 1) := by
  rw [retryGo_succ, h]

lemma retryGo_rounds_le (fetch : Nat → Except String SwapQuote) (rd : Nat) :
    ∀ (n attempt : Nat) (le : Option String) (delays : List Nat),
      (QuoteService.retryGo fetch rd n attempt le delays).2.2 ≤ n := by
  intro n
  induction n with
  | zero =>
    intro attempt le delays
    simp [QuoteService.retryGo]
  | succ m ih =>
    intro attempt le delays
    rw [retryGo_succ]
    cases h : fetch attempt with
    | ok q => simp
    | error e =>
      simp only []
      exact Nat.succ_le_succ (ih _ _ _)

/-- C4: on a cache miss the service runs at most 3 rounds; a first success at
round k is returned and cached with waits 1000 * 1, ..., 1000 * (k-1)
beforehand (none after the final round), and three failing rounds produce the
last round's failure after exactly the waits 1000 and 2000. -/
theorem C4_retry_policy (ft tt : Token) (fc tc : Chain) (amount slippage : String)
    (now : ℤ) (cache : Cache) (fetch : Nat → Except String SwapQuote) (rh : String)
    (hamt : amount ≠ emptyS)
    (hrh : rh = QuoteService.generateRequestHash
        (QuoteService.toQuoteRequest ft tt fc tc amount slippage))
    (hmiss : (QuoteService.getCachedQuote cache rh now).1 = none) :
    (QuoteService.getQuote (mkFormData ft tt fc tc amount slippage) now cache fetch).2.2.2 ≤ 3
    ∧ (∀ q, fetch 1 = Except.ok q →
        QuoteService.getQuote (mkFormData ft tt fc tc amount slippage) now cache fetch
          = (Except.ok q,
              QuoteService.cacheQuote (QuoteService.getCachedQuote cache rh now).2 rh q now,
              [], 1))
    ∧ (∀ e1 q, fetch 1 = Except.error e1 → fetch 2 = Except.ok q →
        QuoteService.getQuote (mkFormData ft tt fc tc amount slippage) now cache fetch
          = (Except.ok q,
              QuoteService.cacheQuote (QuoteService.getCachedQuote cache rh now).2 rh q now,
              [1000], 2))
    ∧ (∀ e1 e2 q, fetch 1 = Except.error e1 → fetch 2 = Except.error e2 →
        fetch 3 = Except.ok q →
        QuoteService.getQuote (mkFormData ft tt fc tc amount slippage) now cache fetch
          = (Except.ok q,
              QuoteService.cacheQuote (QuoteService.getCachedQuote cache rh now).2 rh q now,
              [1000, 2000], 3))
    ∧ (∀ e1 e2 e3, fetch 1 = Except.error e1 → fetch 2 = Except.error e2 →
        fetch 3 = Except.error e3 →
        QuoteService.getQuote (mkFormData ft tt fc tc amount slippage) now cache fetch
          = (Except.error e3, (QuoteService.getCachedQuote cache rh now).2,
              [1000, 2000], 3)) := by
  rw [getQuote_miss_eq ft tt fc tc amount slippage now cache fetch rh hamt hrh hmiss]
  refine ⟨?_, ?_, ?_, ?_, ?_⟩
  · cases hr : (QuoteService.retryGo fetch QuoteService.RETRY_DELAY
        QuoteService.MAX_RETRIES 1 none []).1 with
    | ok q =>
      simp only [hr]
      exact retryGo_rounds_le fetch QuoteService.RETRY_DELAY QuoteService.MAX_RETRIES 1 none []
    | error e =>
      simp only [hr]
      exact retryGo_rounds_le fetch QuoteService.RETRY_DELAY QuoteService.MAX_RETRIES 1 none []
  · intro q h1
    have hr : QuoteService.retryGo fetch QuoteService.RETRY_DELAY
        QuoteService.MAX_RETRIES 1 none [] = (Except.ok q, [], 1) :=
      retryGo_ok fetch QuoteService.RETRY_DELAY 2 1 none [] q h1
    rw [hr]
  · intro e1 q h1 h2
    have hr : QuoteService.retryGo fetch QuoteService.RETRY_DELAY
        QuoteService.MAX_RETRIES 1 none [] = (Except.ok q, [1000], 2) := by
      have s1 : QuoteService.retryGo fetch QuoteService.RETRY_DELAY
          QuoteService.MAX_RETRIES 1 none []
          = ((QuoteService.retryGo fetch QuoteService.RETRY_DELAY 2 2 (some e1) [1000]).1,
              (QuoteService.retryGo fetch QuoteService.RETRY_DELAY 2 2 (some e1) [1000]).2.1,
              (QuoteService.retryGo fetch QuoteService.RETRY_DELAY 2 2
                (some e1) [1000]).2.2 + 1) :=
        retryGo_err fetch QuoteService.RETRY_DELAY 2 1 none [] e1 h1
      have s2 : QuoteService.retryGo fetch QuoteService.RETRY_DELAY 2 2 (some e1) [1000]
          = (Except.ok q, [1000], 1) :=
        retryGo_ok fetch QuoteService.RETRY_DELAY 1 2 (some e1) [1000] q h2
      rw [s1, s2]
    rw [hr]
  · intro e1 e2 q h1 h2 h3
    have hr : QuoteService.retryGo fetch QuoteService.RETRY_DELAY
        QuoteService.MAX_RETRIES 1 none [] = (Except.ok q, [1000, 2000], 3) := by
      have s1 : QuoteService.retryGo fetch QuoteService.RETRY_DELAY
          QuoteService.MAX_RETRIES 1 none []
          = ((QuoteService.retryGo fetch QuoteService.RETRY_DELAY 2 2 (some e1) [1000]).1,
              (QuoteService.retryGo fetch QuoteService.RETRY_DELAY 2 2 (some e1) [1000]).2.1,
              (QuoteService.retryGo fetch QuoteService.RETRY_DELAY 2 2
                (some e1) [1000]).2.2 + 1) :=
        retryGo_err fetch QuoteService.RETRY_DELAY 2 1 none [] e1 h1
      have s2 : QuoteService.retryGo fetch QuoteService.RETRY_DELAY 2 2 (some e1) [1000]
          = ((QuoteService.retryGo fetch QuoteService.RETRY_DELAY 1 3
                (some e2) [1000, 2000]).1,
              (QuoteService.retryGo fetch QuoteService.RETRY_DELAY 1 3
                (some e2) [1000, 2000]).2.1,
              (QuoteService.retryGo fetch QuoteService.RETRY_DELAY 1 3
                (some e2) [1000, 2000]).2.2 + 1) :=
        retryGo_err fetch QuoteService.RETRY_DELAY 1 2 (some e1) [1000] e2 h2
      have s3 : QuoteService.retryGo fetch QuoteService.RETRY_DELAY 1 3
          (some e2) [1000, 2000] = (Except.ok q, [1000, 2000], 1) :=
        retryGo_ok fetch QuoteService.RETRY_DELAY 0 3 (some e2) [1000, 2000] q h3
      rw [s1, s2, s3]
    rw [hr]
  · intro e1 e2 e3 h1 h2 h3
    have hr : QuoteService.retryGo fetch QuoteService.RETRY_DELAY
        QuoteService.MAX_RETRIES 1 none [] = (Except.error e3, [1000, 2000], 3) := by
      have s1 : QuoteService.retryGo fetch QuoteService.RETRY_DELAY
          QuoteService.MAX_RETRIES 1 none []
          = ((QuoteService.retryGo fetch QuoteService.RETRY_DELAY 2 2 (some e1) [1000]).1,
              (QuoteService.retryGo fetch QuoteService.RETRY_DELAY 2 2 (some e1) [1000]).2.1,
              (QuoteService.retryGo fetch QuoteService.RETRY_DELAY 2 2
                (some e1) [1000]).2.2 + 1) :=
        retryGo_err fetch QuoteService.RETRY_DELAY 2 1 none [] e1 h1
      have s2 : QuoteService.retryGo fetch QuoteService.RETRY_DELAY 2 2 (some e1) [1000]
          = ((QuoteService.retryGo fetch QuoteService.RETRY_DELAY 1 3
                (some e2) [1000, 2000]).1,
              (QuoteService.retryGo fetch QuoteService.RETRY_DELAY 1 3
                (some e2) [1000, 2000]).2.1,
              (QuoteService.retryGo fetch QuoteService.RETRY_DELAY 1 3
                (some e2) [1000, 2000]).2.2 + 1) :=
        retryGo_err fetch QuoteService.RETRY_DELAY 1 2 (some e1) [1000] e2 h2
      have s3 : QuoteService.retryGo fetch QuoteService.RETRY_DELAY 1 3
          (some e2) [1000, 2000]
          = ((QuoteService.retryGo fetch QuoteService.RETRY_DELAY 0 4
                (some e3) [1000, 2000]).1,
              (QuoteService.retryGo fetch QuoteService.RETRY_DELAY 0 4
                (some e3) [1000, 2000]).2.1,
              (QuoteService.retryGo fetch QuoteService.RETRY_DELAY 0 4
                (some e3) [1000, 2000]).2.2 + 1) :=
        retryGo_err fetch QuoteService.RETRY_DELAY 0 3 (some e2) [1000, 2000] e3 h3
      have s4 : QuoteService.retryGo fetch QuoteService.RETRY_DELAY 0 4
          (some e3) [1000, 2000] = (Except.error e3, [1000, 2000], 0) := rfl
      rw [s1, s2, s3, s4]
    rw [hr]

def qW : SwapQuote := mkQuote 1 100 0 60000

def errProv : String := "provider down"

/-- Oracle for the C4 witness: the aggregator pool fails on the first two
rounds and succeeds on the third. -/
def fetchDemo : Nat → Except String SwapQuote :=
  fun n => if n == 3 then Except.ok qW else Except.error errProv

def fdDemo : SwapFormData := mkFormData tokFrom tokTo chainBase chainBase amt1 slip05

/-- Witness for C4: two failing rounds then a success returns the round-3
quote, caches it, and the caller observes exactly the waits 1000 and 2000. -/
theorem C4_witness :
    QuoteService.getQuote fdDemo 0 [] fetchDemo
      = (Except.ok qW,
          QuoteService.cacheQuote [] (QuoteService.generateRequestHash
            (QuoteService.toQuoteRequest tokFrom tokTo chainBase chainBase amt1 slip05))
            qW 0,
          [1000, 2000], 3) := by
  have h := (C4_retry_policy tokFrom tokTo chainBase chainBase amt1 slip05 0 [] fetchDemo
      (QuoteService.generateRequestHash
        (QuoteService.toQuoteRequest tokFrom tokTo chainBase chainBase amt1 slip05))
      (by decide) rfl rfl).2.2.2.1 errProv errProv qW rfl rfl rfl
  exact h

def fdSameToken : SwapFormData := mkFormData tokFrom tokFrom chainBase chainBase amt1 slip05

/-- C8 divergence: a request whose fromToken and toToken are the identical
token on the identical chain passes the guard of QuoteService.getQuote (which
only checks for missing fields) and, on a fresh cache, invokes the provider
pool at least once — no validation failure precedes the network calls,
although ValidationService.validateSwapData would reject the request. -/
theorem C8_same_token_reaches_providers (now : ℤ) (fetch : Nat → Except String SwapQuote) :
    fdSameToken.fromToken = fdSameToken.toToken
    ∧ 1 ≤ (QuoteService.getQuote fdSameToken now [] fetch).2.2.2 := by
  constructor
  · rfl
  · rw [show fdSameToken = mkFormData tokFrom tokFrom chainBase chainBase amt1 slip05 from rfl]
    rw [getQuote_miss_eq tokFrom tokFrom chainBase chainBase amt1 slip05 now [] fetch
      (QuoteService.generateRequestHash
        (QuoteService.toQuoteRequest tokFrom tokFrom chainBase chainBase amt1 slip05))
      (by decide) rfl rfl]
    cases hr : (QuoteService.retryGo fetch QuoteService.RETRY_DELAY
        QuoteService.MAX_RETRIES 1 none []).1 with
    | ok q =>
      simp only [hr]
      exact retryGo_pos fetch QuoteService.RETRY_DELAY 2 1 none []
    | error e =>
      simp only [hr]
      exact retryGo_pos fetch QuoteService.RETRY_DELAY 2 1 none []

end AggroSwap
